import Mathlib

/-!
Verification development for the scraper plugin framework of the
`terminal-ui-biotech-GG` repository: URL canonicalization and MinHash
clustering (`platform/scrapers/utils/deduplication.py`), the token-bucket
rate limiter (`platform/scrapers/utils/rate_limiter.py`), the async HTTP
client caches (`platform/scrapers/utils/http_client.py`), the scraper
registry (`platform/scrapers/base/registry.py`), the pipeline orchestrator
(`platform/scrapers/base/interface.py`) and the per-site `discover`
implementations (`platform/scrapers/sites/*.py`).

Modelling conventions: Python `float` time and token quantities are
modelled as `ℚ`; wall-clock instants (`datetime.utcnow()`) are explicit
`ℚ` parameters measured in seconds; Python dicts keyed by strings are
insertion-ordered association lists with replace-on-assign semantics;
exceptions are `Except String`; URLs are modelled in `urlparse`d form as a
six-component record, with percent-encoding/decoding the identity (the
model covers URLs whose components contain no percent-escapes or `+`).
-/

namespace Scrapers

/-! ### Python primitives -/

/-- Model of Python `str.lower()` (ASCII range, the case used by the code's
URL and keyword handling). -/
def pyLower (s : String) : String :=
  ⟨s.data.map Char.toLower⟩

/-- Model of Python `str.rstrip('/')`: drop every trailing `'/'`. -/
def pyRstripSlash (s : String) : String :=
  ⟨(s.data.reverse.dropWhile (· = '/')).reverse⟩

/-- Model of Python `int()` applied to a rational: truncation toward zero. -/
def pyInt (q : ℚ) : ℤ :=
  Int.tdiv q.num q.den

/-- Python dict assignment `d[k] = v` on an insertion-ordered association
list: replace the value at an existing key in place, else append. -/
def dictSet {β : Type} : List (String × β) → String → β → List (String × β)
  | [], k, v => [(k, v)]
  | (k', v') :: rest, k, v =>
    if k' = k then (k', v) :: rest else (k', v') :: dictSet rest k v

/-! ### `urllib.parse` fragments used by `canonical_url`

`urlparse` output is modelled as the parsed six-tuple directly. -/

/-- A URL in `urllib.parse.urlparse` six-component form. -/
structure URLRec where
  scheme : String
  netloc : String
  path : String
  params : String
  query : String
  fragment : String
deriving DecidableEq, Repr

/-- `url.lower()` applied before parsing, modelled componentwise (the
`urlparse` delimiters are case-invariant, so lowering the string then
parsing agrees with parsing then lowering each component). -/
def lowerURL (u : URLRec) : URLRec :=
  ⟨pyLower u.scheme, pyLower u.netloc, pyLower u.path,
   pyLower u.params, pyLower u.query, pyLower u.fragment⟩

/-- Model of Python `str.split(sep)` for a one-character separator (the
only form the modelled code uses: `'&'` and `'='`). -/
def splitOnChar (sep : Char) : List Char → List (List Char)
  | [] => [[]]
  | c :: rest =>
    if c = sep then [] :: splitOnChar sep rest
    else
      match splitOnChar sep rest with
      | [] => [[c]]
      | h :: t => (c :: h) :: t

/-- Model of joining character lists with a one-character separator
(`sep.join(parts)`). -/
def joinChar (sep : Char) : List (List Char) → List Char
  | [] => []
  | [x] => x
  | x :: y :: t => x ++ sep :: joinChar sep (y :: t)

/-- Model of `urllib.parse.parse_qsl(qs)` with default arguments: split the
query on `&`, split each field on the first `=`, and drop fields that have
no `=` or an empty value (`keep_blank_values=False`); percent-decoding is
the identity on the modelled character set. -/
def parseQsl (q : String) : List (String × String) :=
  (splitOnChar '&' q.data).filterMap fun field =>
    match splitOnChar '=' field with
    | [] => none
    | [_] => none
    | name :: rest =>
      let value := joinChar '=' rest
      if value = [] then none else some (⟨name⟩, ⟨value⟩)

/-- One step of the `parse_qs` grouping dict: append `v` to the entry for
`k`, creating the entry at the end if absent. -/
def addToGroup : List (String × List String) → String → String →
    List (String × List String)
  | [], k, v => [(k, [v])]
  | (k', vs) :: rest, k, v =>
    if k' = k then (k', vs ++ [v]) :: rest
    else (k', vs) :: addToGroup rest k v

/-- Model of `urllib.parse.parse_qs(qs)`: group the `parse_qsl` pairs by
key, keys in first-occurrence order, values in encounter order. -/
def parseQs (q : String) : List (String × List String) :=
  (parseQsl q).foldl (fun acc p => addToGroup acc p.1 p.2) []

/-- The fixed deny-list of tracking query parameters in `canonical_url`. -/
def trackingParams : List String :=
  ["utm_source", "utm_medium", "utm_campaign", "utm_term", "utm_content",
   "fbclid", "gclid", "msclkid", "_ga", "mc_cid", "mc_eid"]

/-- Lexicographic `≤` on character lists by code point, as Python compares
strings. -/
def chLe : List Char → List Char → Bool
  | [], _ => true
  | _ :: _, [] => false
  | a :: as, b :: bs =>
    if a.toNat < b.toNat then true
    else if b.toNat < a.toNat then false
    else chLe as bs

/-- Python string `≤` (code-point lexicographic). -/
def strLe (s t : String) : Bool :=
  chLe s.data t.data

theorem chLe_total (a b : List Char) : chLe a b = true ∨ chLe b a = true := by
  induction a generalizing b with
  | nil => left; rfl
  | cons x xs ih =>
    cases b with
    | nil => right; rfl
    | cons y ys =>
      by_cases hxy : x.toNat < y.toNat
      · left; simp [chLe, hxy]
      · by_cases hyx : y.toNat < x.toNat
        · right; simp [chLe, hyx]
        · rcases ih ys with h | h
          · left; simp [chLe, hxy, hyx, h]
          · right; simp [chLe, hxy, hyx, h]

theorem chLe_trans {a b c : List Char} (hab : chLe a b = true)
    (hbc : chLe b c = true) : chLe a c = true := by
  induction a generalizing b c with
  | nil => rfl
  | cons x xs ih =>
    cases b with
    | nil => simp [chLe] at hab
    | cons y ys =>
      cases c with
      | nil => simp [chLe] at hbc
      | cons z zs =>
        simp only [chLe] at hab hbc ⊢
        by_cases hxy : x.toNat < y.toNat
        · by_cases hyz : y.toNat < z.toNat
          · simp [Nat.lt_trans hxy hyz]
          · by_cases hzy : z.toNat < y.toNat
            · simp [hyz, hzy] at hbc
            · have : x.toNat < z.toNat := by omega
              simp [this]
        · by_cases hyx : y.toNat < x.toNat
          · simp [hxy, hyx] at hab
          · simp only [hxy, hyx, if_false] at hab
            by_cases hyz : y.toNat < z.toNat
            · have : x.toNat < z.toNat := by omega
              simp [this]
            · by_cases hzy : z.toNat < y.toNat
              · simp [hyz, hzy] at hbc
              · simp only [hyz, hzy, if_false] at hbc
                have h1 : ¬ x.toNat < z.toNat := by omega
                have h2 : ¬ z.toNat < x.toNat := by omega
                simp [h1, h2, ih hab hbc]

theorem chLe_antisymm {a b : List Char} (hab : chLe a b = true)
    (hba : chLe b a = true) : a = b := by
  induction a generalizing b with
  | nil =>
    cases b with
    | nil => rfl
    | cons y ys => simp [chLe] at hba
  | cons x xs ih =>
    cases b with
    | nil => simp [chLe] at hab
    | cons y ys =>
      simp only [chLe] at hab hba
      by_cases hxy : x.toNat < y.toNat
      · have h' : ¬ y.toNat < x.toNat := by omega
        simp [hxy, h'] at hba
      · by_cases hyx : y.toNat < x.toNat
        · simp [hxy, hyx] at hab
        · simp only [hxy, hyx, if_false] at hab hba
          have hn : x.toNat = y.toNat := by omega
          have hx : x = y := Char.eq_of_val_eq (UInt32.ext hn)
          rw [hx, ih hab hba]

/-- The ordering `sorted(filtered_params.items())` uses: Python compares
the `(key, values)` tuples, and the grouped keys are distinct, so key
comparison decides. -/
def paramLE (p q : String × List String) : Prop :=
  strLe p.1 q.1 = true

instance : DecidableRel paramLE := fun p q =>
  inferInstanceAs (Decidable (strLe p.1 q.1 = true))

instance : IsTotal (String × List String) paramLE :=
  ⟨fun p q => chLe_total p.1.data q.1.data⟩

instance : IsTrans (String × List String) paramLE :=
  ⟨fun _ _ _ h h' => chLe_trans h h'⟩

theorem strLe_antisymm {s t : String} (hst : strLe s t = true)
    (hts : strLe t s = true) : s = t := by
  cases s with
  | mk sd =>
    cases t with
    | mk td => exact congrArg String.mk (chLe_antisymm hst hts)

/-- Model of `urllib.parse.urlencode(pairs, doseq=True)`: one `k=v` field
per value, joined by `&`; percent-encoding is the identity on the modelled
character set. -/
def urlencodeDoseq (ps : List (String × List String)) : String :=
  ⟨joinChar '&' ((ps.flatMap fun p => p.2.map fun v => p.1 ++ "=" ++ v).map
    String.data)⟩

/-- `canonical_url` from `platform/scrapers/utils/deduplication.py`
(lines 14-55), on a pre-parsed, pre-stripped URL: lowercase the whole URL,
drop deny-listed query parameters, sort the remaining grouped parameters
by key, re-encode, strip trailing slashes from the path, drop the
fragment. -/
def canonical_url (u : URLRec) : URLRec :=
  let parsed := lowerURL u
  let query_params := parseQs parsed.query
  let filtered_params :=
    query_params.filter fun p => !(trackingParams.contains p.1)
  let sorted_params := filtered_params.insertionSort paramLE
  let new_query := urlencodeDoseq sorted_params
  { scheme := parsed.scheme
    netloc := parsed.netloc
    path := pyRstripSlash parsed.path
    params := parsed.params
    query := new_query
    fragment := "" }

example :
    canonical_url ⟨"http", "X.com", "/A/", "", "b=2&utm_source=x&a=1", "f"⟩ =
      ⟨"http", "x.com", "/a", "", "a=1&b=2", ""⟩ := by decide

example :
    canonical_url ⟨"http", "x.com", "/a", "", "utm_id=5", ""⟩ =
      ⟨"http", "x.com", "/a", "", "utm_id=5", ""⟩ := by decide

/-! ### Token bucket rate limiter
(`platform/scrapers/utils/rate_limiter.py`)

Wall-clock time (`datetime.utcnow()`) is an explicit `ℚ` parameter in
seconds; each `asyncio.sleep` advances it.  The unbounded `while True`
wait loop is modelled with explicit fuel: `none` means the loop has not
finished within `fuel` iterations. -/

/-- One per-host bucket (`self.buckets[host]`). -/
structure Bucket where
  tokens : ℚ
  capacity : ℚ
  rate : ℚ
  lastRefill : ℚ
deriving DecidableEq, Repr

/-- `TokenBucketRateLimiter` state: defaults plus per-host buckets. -/
structure RateLimiter where
  defaultRate : ℚ
  defaultCapacity : ℤ
  buckets : List (String × Bucket)
deriving DecidableEq, Repr

/-- The bucket the `defaultdict` factory creates on first access. -/
def newBucket (l : RateLimiter) (now : ℚ) : Bucket :=
  ⟨(l.defaultCapacity : ℚ), (l.defaultCapacity : ℚ), l.defaultRate, now⟩

/-- `self.buckets[host]` (lazily created on first access at time `now`). -/
def getBucket (l : RateLimiter) (host : String) (now : ℚ) : Bucket :=
  (l.buckets.lookup host).getD (newBucket l now)

/-- Store a (possibly fresh) bucket back into the limiter. -/
def setBucket (l : RateLimiter) (host : String) (b : Bucket) : RateLimiter :=
  { l with buckets := dictSet l.buckets host b }

/-- `_refill_bucket`: add `elapsed * rate` tokens, capped at capacity. -/
def refillBucket (b : Bucket) (now : ℚ) : Bucket :=
  { b with
    tokens := min b.capacity (b.tokens + (now - b.lastRefill) * b.rate)
    lastRefill := now }

/-- Result of one `acquire` call: the updated bucket, the time at which
the tokens were consumed (or the call gave up), the time at which the call
returns (the success path sleeps `jitter * (1/rate)` first), and whether
tokens were acquired. -/
structure AcquireResult where
  bucket : Bucket
  acquiredAt : ℚ
  returnsAt : ℚ
  ok : Bool
deriving DecidableEq, Repr

/-- The `while True` loop of `acquire`, on one host's bucket.  `jitter` is
the value drawn by `random.uniform(0.9, 1.1)`. -/
def acquireLoop (startTime : ℚ) (maxWait : Option ℚ) (tok : ℚ) (jitter : ℚ) :
    Nat → Bucket → ℚ → Option AcquireResult
  | 0, _, _ => none
  | fuel + 1, b, now =>
    let b' := refillBucket b now
    if tok ≤ b'.tokens then
      some ⟨{ b' with tokens := b'.tokens - tok }, now,
            now + jitter * (1 / b'.rate), true⟩
    else
      match maxWait with
      | some mw =>
          if mw ≤ now - startTime then some ⟨b', now, now, false⟩
          else acquireLoop startTime maxWait tok jitter fuel b' (now + tok / b'.rate)
      | none => acquireLoop startTime maxWait tok jitter fuel b' (now + tok / b'.rate)

/-- `TokenBucketRateLimiter.acquire` for a given host, started at `now`. -/
def acquire (l : RateLimiter) (host : String) (tok : ℚ) (maxWait : Option ℚ)
    (jitter : ℚ) (fuel : Nat) (now : ℚ) : Option (RateLimiter × AcquireResult) :=
  (acquireLoop now maxWait tok jitter fuel (getBucket l host now) now).map
    fun r => (setBucket l host r.bucket, r)

/-- `acquire(url, ...)`: `_get_host` extracts `urlparse(url).netloc`. -/
def acquireURL (l : RateLimiter) (u : URLRec) (tok : ℚ) (maxWait : Option ℚ)
    (jitter : ℚ) (fuel : Nat) (now : ℚ) : Option (RateLimiter × AcquireResult) :=
  acquire l u.netloc tok maxWait jitter fuel now

/-- `set_rate(host, rate, capacity)`: with `capacity=None` the bucket
capacity becomes `int(rate * 10)`; tokens are reset to the capacity, the
`last_refill` stamp of the (possibly fresh) bucket is kept. -/
def set_rate (l : RateLimiter) (host : String) (rate : ℚ)
    (capacity : Option ℤ) (now : ℚ) : RateLimiter :=
  let cap : ℤ := capacity.getD (pyInt (rate * 10))
  let b := getBucket l host now
  setBucket l host { b with rate := rate, capacity := (cap : ℚ), tokens := (cap : ℚ) }

/-- The per-host statistics dict built by `get_stats`. -/
structure HostStats where
  tokens : ℚ
  capacity : ℚ
  rate : ℚ
  utilization : ℚ
deriving DecidableEq, Repr

/-- `get_stats(host)` for a given host: `self.buckets.get(host)` (a plain
`dict.get`, which does not create a bucket) returns `{}` (`none`) when the
host is unknown; `utilization = 1.0 - tokens/capacity` raises
`ZeroDivisionError` when the capacity is zero. -/
def get_stats (l : RateLimiter) (host : String) :
    Except String (Option HostStats) :=
  match l.buckets.lookup host with
  | none => .ok none
  | some b =>
      if b.capacity = 0 then .error "ZeroDivisionError"
      else .ok (some ⟨b.tokens, b.capacity, b.rate, 1 - b.tokens / b.capacity⟩)

/-! ### MinHash LSH deduplicator
(`platform/scrapers/utils/deduplication.py`, `MinHashDeduplicator`)

The `datasketch` MinHash/LSH internals are an external library; they are
modelled at their interface: a signature is the banded MinHash signature
(a list of bands, each a list of hash values), and the LSH index reports
two keys as candidates exactly when some band of their signatures agrees —
the locality-sensitive-hashing candidate rule the spec describes.  The
`add`/`query_by_id`/`get_clusters` logic over that index is translated
from the repository source. -/

/-- A banded MinHash signature. -/
abbrev Sig := List (List Nat)

/-- LSH candidate rule: two keys collide iff some band of their signatures
is equal (the index stores each key under one hash per band). -/
def lshCollide (s t : Sig) : Bool :=
  (s.zip t).any fun p => p.1 == p.2

/-- `MinHashDeduplicator` state: `self.minhashes`, an insertion-ordered
dict from doc id to signature (the LSH index contents coincide). -/
structure MinHashDedup where
  minhashes : List (String × Sig)
deriving DecidableEq, Repr

/-- `add(doc_id, text)`: insert into the LSH index and record the
signature (`sigOf` models `_create_minhash`). -/
def addDoc (d : MinHashDedup) (docId : String) (sig : Sig) : MinHashDedup :=
  ⟨dictSet d.minhashes docId sig⟩

/-- `lsh.query(minhash)` against the index: the keys whose signature shares
a band, in index order. -/
def lshQuery (d : MinHashDedup) (sig : Sig) : List String :=
  (d.minhashes.filter fun p => lshCollide sig p.2).map Prod.fst

/-- `query_by_id(doc_id)`: `[]` for an unknown id, else the LSH candidates
of the stored signature (which include `doc_id` itself whenever one of its
bands matches itself). -/
def queryById (d : MinHashDedup) (docId : String) : List String :=
  match d.minhashes.lookup docId with
  | none => []
  | some sig => lshQuery d sig

/-- The loop of `get_clusters`: walk the ids in index order, skip ids
already seen, emit `query_by_id` of each remaining id as a cluster (when
nonempty) and mark its members seen. -/
def getClustersGo (d : MinHashDedup) : List String → List String → List (List String)
  | [], _ => []
  | docId :: rest, seen =>
    if seen.contains docId then getClustersGo d rest seen
    else
      let cluster := queryById d docId
      if cluster.isEmpty then getClustersGo d rest seen
      else cluster :: getClustersGo d rest (seen ++ cluster)

/-- `get_clusters()`. -/
def get_clusters (d : MinHashDedup) : List (List String) :=
  getClustersGo d (d.minhashes.map Prod.fst) []

/-! ### Async HTTP client
(`platform/scrapers/utils/http_client.py`)

The network is external: each call takes the remote response (or the
exception the transport raised) as an argument.  The model returns, next
to the value the Python method returns, the request headers actually sent
(for `get`) and whether the network was contacted (for `validate_link`). -/

/-- The mutable caches of `AsyncHTTPClient`. -/
structure HTTPState where
  etagCache : List (String × String)
  lastModifiedCache : List (String × String)
  linkCache : List (String × (Bool × ℚ))
deriving DecidableEq, Repr

/-- `link_cache_ttl = timedelta(days=7)`, in seconds. -/
def linkCacheTtl : ℚ := 7 * 86400

/-- A remote HTTP response as the `httpx` client delivers it (header names
already lower-cased, as `httpx.Headers` normalizes them). -/
structure HTTPResponse where
  status : ℤ
  headers : List (String × String)
  body : String
deriving DecidableEq, Repr

/-- The request-header dict `get` builds before issuing the request:
start empty, attach `If-None-Match`/`If-Modified-Since` from the caches
when `use_cache`, then `update` with the caller's headers. -/
def buildGetHeaders (st : HTTPState) (url : String) (useCache : Bool)
    (headers : Option (List (String × String))) : List (String × String) :=
  let rh : List (String × String) := []
  let rh := if useCache then
      match st.etagCache.lookup url with
      | some e => dictSet rh "If-None-Match" e
      | none => rh
    else rh
  let rh := if useCache then
      match st.lastModifiedCache.lookup url with
      | some lm => dictSet rh "If-Modified-Since" lm
      | none => rh
    else rh
  match headers with
  | some hs => hs.foldl (fun acc p => dictSet acc p.1 p.2) rh
  | none => rh

/-- What one `get` call returns to the caller. -/
structure GetResult where
  url : String
  status : ℤ
  headers : List (String × String)
  html : String
  sentHeaders : List (String × String)
deriving DecidableEq, Repr

/-- `AsyncHTTPClient.get(url, use_cache, headers)`, with the remote
response supplied: build the conditional request headers, issue the
request, then cache any returned `ETag`/`Last-Modified`. -/
def httpGet (st : HTTPState) (url : String) (useCache : Bool)
    (headers : Option (List (String × String))) (response : HTTPResponse) :
    GetResult × HTTPState :=
  let requestHeaders := buildGetHeaders st url useCache headers
  let st := match response.headers.lookup "etag" with
    | some e => { st with etagCache := dictSet st.etagCache url e }
    | none => st
  let st := match response.headers.lookup "last-modified" with
    | some lm => { st with lastModifiedCache := dictSet st.lastModifiedCache url lm }
    | none => st
  (⟨url, response.status, response.headers, response.body, requestHeaders⟩, st)

/-- `head`'s `valid` field: `200 <= status < 400`. -/
def headValid (status : ℤ) : Bool :=
  200 ≤ status && status < 400

/-- What one `validate_link` call yields: the boolean returned, the new
cache state, and whether the `head` request was actually issued. -/
structure ValidateResult where
  valid : Bool
  state : HTTPState
  contactedServer : Bool
deriving DecidableEq, Repr

/-- `AsyncHTTPClient.validate_link(url, use_cache)` at time `now`, with
the outcome of the underlying `head` request supplied (`.error` when the
transport raised): serve a fresh cached entry without any request,
otherwise validate (any exception yields `False`) and cache the boolean
with the current timestamp. -/
def validate_link (st : HTTPState) (url : String) (useCache : Bool)
    (now : ℚ) (headOutcome : Except String ℤ) : ValidateResult :=
  let check : ValidateResult :=
    let valid := match headOutcome with
      | .ok status => headValid status
      | .error _ => false
    ⟨valid, { st with linkCache := dictSet st.linkCache url (valid, now) }, true⟩
  match (if useCache then st.linkCache.lookup url else none) with
  | some (v, cachedAt) =>
      if now - cachedAt < linkCacheTtl then ⟨v, st, false⟩ else check
  | none => check

/-! ### Scraper registry
(`platform/scrapers/base/registry.py`)

The filesystem at the registry path is modelled as the parsed YAML
document stored there (`Option RegistryDoc`, `none` = file absent); the
YAML layer itself is external and assumed to round-trip. -/

/-- The `rate_limit` block of one configured source. -/
structure RateLimitData where
  max_rps : Option ℚ
  max_concurrent : Option ℤ
deriving DecidableEq, Repr

/-- The `discovery` block of one configured source. -/
structure DiscoveryData where
  has_rss : Option Bool
  rss_url : Option String
  has_sitemap : Option Bool
  sitemap_url : Option String
  has_archive : Option Bool
  archive_url : Option String
deriving DecidableEq, Repr

/-- The `robots` block of one configured source. -/
structure RobotsData where
  respect : Option Bool
  user_agent : Option String
deriving DecidableEq, Repr

/-- One raw scraper entry of the YAML document; `none` models an absent
key (`scraper_data['source_key']` raises `KeyError` when absent, the
`.get`-accessed keys fall back to defaults). -/
structure ScraperData where
  source_key : Option String
  name : Option String
  base_url : Option String
  enabled : Option Bool
  rate_limit : Option RateLimitData
  discovery : Option DiscoveryData
  robots : Option RobotsData
deriving DecidableEq, Repr

/-- The parsed registry YAML document: a version and the scrapers grouped
by category. -/
structure RegistryDoc where
  version : Option String
  scrapers : List (String × List ScraperData)
deriving DecidableEq, Repr

/-- The `ScraperConfig` dataclass. -/
structure ScraperConfig where
  source_key : String
  name : String
  category : String
  base_url : String
  enabled : Bool
  max_requests_per_second : ℚ
  max_concurrent : ℤ
  has_rss : Bool
  rss_url : Option String
  has_sitemap : Bool
  sitemap_url : Option String
  has_archive : Bool
  archive_url : Option String
  respect_robots_txt : Bool
  user_agent : String
deriving DecidableEq, Repr

/-- The default user agent used by `_load_registry` and the dataclass. -/
def defaultUserAgent : String := "BiotechTerminal/1.0 (contact@bioterminal.dev)"

/-- Parse one YAML scraper entry into a `ScraperConfig`
(`_load_registry`'s per-entry construction; a missing required key raises
`KeyError`). -/
def parseScraperData (category : String) (d : ScraperData) :
    Except String ScraperConfig := do
  let sk ← d.source_key.elim (Except.error "KeyError: source_key") Except.ok
  let nm ← d.name.elim (Except.error "KeyError: name") Except.ok
  let bu ← d.base_url.elim (Except.error "KeyError: base_url") Except.ok
  let rl := d.rate_limit.getD ⟨none, none⟩
  let dc := d.discovery.getD ⟨none, none, none, none, none, none⟩
  let rb := d.robots.getD ⟨none, none⟩
  return { source_key := sk
           name := nm
           category := category
           base_url := bu
           enabled := d.enabled.getD true
           max_requests_per_second := rl.max_rps.getD 1
           max_concurrent := rl.max_concurrent.getD 4
           has_rss := dc.has_rss.getD false
           rss_url := dc.rss_url
           has_sitemap := dc.has_sitemap.getD false
           sitemap_url := dc.sitemap_url
           has_archive := dc.has_archive.getD false
           archive_url := dc.archive_url
           respect_robots_txt := rb.respect.getD true
           user_agent := rb.user_agent.getD defaultUserAgent }

/-- `_create_default_registry`'s document: version `'1.0'` and the five
empty category lists. -/
def defaultRegistryDoc : RegistryDoc :=
  ⟨some "1.0",
   [("news_press", []), ("regulators", []), ("registries", []),
    ("exchanges", []), ("company_sites", [])]⟩

/-- The nested `for category, scrapers ... for scraper_data ...` loops of
`_load_registry`, writing each parsed config into
`self.scrapers[config.source_key]` in encounter order. -/
def loadScrapersLoop (acc : List (String × ScraperConfig)) :
    List (String × List ScraperData) →
    Except String (List (String × ScraperConfig))
  | [] => .ok acc
  | (category, ds) :: rest => do
      let acc ← ds.foldlM (fun a d => do
          let c ← parseScraperData category d
          return dictSet a c.source_key c) acc
      loadScrapersLoop acc rest

/-- `ScraperRegistry` state after construction. -/
structure ScraperRegistryState where
  scrapers : List (String × ScraperConfig)
deriving DecidableEq, Repr

/-- `ScraperRegistry.__init__` / `_load_registry`, over the modelled
filesystem: when the file is absent, write the default skeleton document,
then read the file back and build the `scrapers` dict.  Returns the file
content after construction together with the registry state. -/
def scraperRegistryInit (fs : Option RegistryDoc) :
    Except String (RegistryDoc × ScraperRegistryState) := do
  let written := match fs with
    | none => defaultRegistryDoc
    | some d => d
  let dict ← loadScrapersLoop [] written.scrapers
  return (written, ⟨dict⟩)

/-- `list_sources()`. -/
def list_sources (r : ScraperRegistryState) : List String :=
  r.scrapers.map Prod.fst

/-! ### The `run` orchestrator
(`platform/scrapers/base/interface.py`, `ScraperInterface.run`)

`run` is generic in the concrete scraper: the abstract methods are fields
of a `Pipeline` record (raw responses, parsed data and results are type
parameters; a raising step is an `Except.error`).  `discover` and `fetch`
are the values those awaits produce for this invocation. -/

/-- One scraper bound to one invocation's inputs. -/
structure Pipeline (Raw Parsed Res E : Type) where
  discover : Except E (List String)
  fetch : List String → Except E (List Raw)
  parse : Raw → Except E Parsed
  normalize : Parsed → Except E Res
  link : Res → Except E Res
  saveFixtureStep : Raw → Parsed → Res → Except E Res
  upsert : Res → Bool → Except E Bool

/-- The body of `run`'s `try` block for one raw item: parse, normalize,
link, optionally save a fixture (which sets `result.fixture_path`), then
upsert; the item's result is appended only when every step returned. -/
def processItem {Raw Parsed Res E : Type} (p : Pipeline Raw Parsed Res E)
    (dryRun saveFixture : Bool) (raw : Raw) : Except E Res := do
  let parsed ← p.parse raw
  let res ← p.normalize parsed
  let res ← p.link res
  let res ← if saveFixture then p.saveFixtureStep raw parsed res else pure res
  let _ ← p.upsert res dryRun
  pure res

/-- The `for raw_content in raw_contents` loop of `run`: a raising item is
caught, logged and skipped; the loop continues. -/
def processItems {Raw Parsed Res E : Type} (p : Pipeline Raw Parsed Res E)
    (dryRun saveFixture : Bool) : List Raw → List Res
  | [] => []
  | raw :: rest =>
    match processItem p dryRun saveFixture raw with
    | .ok res => res :: processItems p dryRun saveFixture rest
    | .error _ => processItems p dryRun saveFixture rest

/-- `ScraperInterface.run`: discover (uncaught), return `[]` on an empty
URL list, fetch (uncaught), then the per-item catch-and-continue loop. -/
def run {Raw Parsed Res E : Type} (p : Pipeline Raw Parsed Res E)
    (dryRun saveFixture : Bool) : Except E (List Res) := do
  let urls ← p.discover
  if urls.isEmpty then return []
  let raws ← p.fetch urls
  return processItems p dryRun saveFixture raws

/-! ### Site `discover` implementations
(`platform/scrapers/sites/fierce_scraper.py` and
`platform/scrapers/sites/press_release_scraper.py`)

`feedparser.parse` is external: the feed a scraper's RSS URL yields is an
argument (a list of entries, each with an optional link — `entry.get
('link', '')` empty models `none` — and an optional parsed publication
time in seconds).  Links are pre-parsed `URLRec`s, consistent with the
URL model above. -/

/-- One RSS feed entry as the discover loops read it. -/
structure FeedEntry where
  link : Option URLRec
  publishedParsed : Option ℚ
deriving Repr

/-- The shared RSS discovery loop: skip entries published before `since`
(entries without a parsed date pass through — the `except` clause just
`pass`es), append the canonicalized link when present, and `break` once
`limit` (when given and nonzero — `if limit` is false for `0`) is
reached. -/
def discoverLoop (since : Option ℚ) (limit : Option Nat) :
    List FeedEntry → List URLRec → List URLRec
  | [], acc => acc
  | e :: rest, acc =>
    if (match since, e.publishedParsed with
        | some s, some p => decide (p < s)
        | _, _ => false) then
      discoverLoop since limit rest acc
    else
      let acc := match e.link with
        | some u => acc ++ [canonical_url u]
        | none => acc
      if (match limit with
          | some l => l != 0 && acc.length ≥ l
          | none => false) then acc
      else discoverLoop since limit rest acc

/-- `FierceScraper.discover`: `method="url"` with a truthy (nonempty)
`urls` list returns it verbatim; any other method than `"rss"` raises
`ValueError`; otherwise the RSS feed is walked. -/
def fierceDiscover (feed : List FeedEntry) (method : String) (since : Option ℚ)
    (limit : Option Nat) (urls : Option (List URLRec)) :
    Except String (List URLRec) :=
  if method == "url" && !(urls.getD []).isEmpty then .ok (urls.getD [])
  else if method != "rss" then
    .error ("ValueError: Method " ++ method ++ " not supported for FierceScraper")
  else .ok (discoverLoop since limit feed [])

/-- `PressReleaseScraper.discover`: `method="url"` with a truthy `urls`
list returns it verbatim; an empty configured `rss_url` yields `[]`;
otherwise the RSS feed is walked. -/
def pressDiscover (rssUrl : String) (feed : List FeedEntry) (method : String)
    (since : Option ℚ) (limit : Option Nat) (urls : Option (List URLRec)) :
    Except String (List URLRec) :=
  if method == "url" && !(urls.getD []).isEmpty then .ok (urls.getD [])
  else if rssUrl = "" then .ok []
  else .ok (discoverLoop since limit feed [])

/-! ## Shared lemmas about the dict model -/

theorem lookup_dictSet_self {β : Type} (l : List (String × β)) (k : String)
    (v : β) : (dictSet l k v).lookup k = some v := by
  induction l with
  | nil => simp [dictSet, List.lookup]
  | cons p rest ih =>
    by_cases h : p.1 = k
    · simp [dictSet, h, List.lookup]
    · have hb : (k == p.1) = false := by
        simp [beq_iff_eq]
        exact fun he => h he.symm
      simp [dictSet, h, List.lookup, hb, ih]

theorem lookup_dictSet_ne {β : Type} (l : List (String × β)) (k k' : String)
    (v : β) (h : k' ≠ k) : (dictSet l k v).lookup k' = l.lookup k' := by
  induction l with
  | nil =>
    have hb : (k' == k) = false := by simp [beq_iff_eq, h]
    simp [dictSet, List.lookup, hb]
  | cons p rest ih =>
    by_cases hp : p.1 = k
    · have hb : (k' == p.1) = false := by
        simp [beq_iff_eq]
        exact fun he => h (he.trans hp)
      simp [dictSet, hp, List.lookup, hb]
      subst hp
      simp [hb]
    · simp [dictSet, hp, List.lookup]
      cases hkp : (k' == p.1) <;> simp [ih]

theorem lookup_foldl_dictSet {β : Type} (hs : List (String × β))
    (acc : List (String × β)) (k : String) (h : hs.lookup k = none) :
    (hs.foldl (fun a p => dictSet a p.1 p.2) acc).lookup k = acc.lookup k := by
  induction hs generalizing acc with
  | nil => rfl
  | cons p rest ih =>
    simp only [List.lookup] at h
    cases hkp : (k == p.1) with
    | true => simp [hkp] at h
    | false =>
      rw [hkp] at h
      simp only [List.foldl_cons]
      rw [ih _ h, lookup_dictSet_ne]
      intro he
      rw [he] at hkp
      simp at hkp

/-! ## C8 — registry bootstrap when the file is absent -/

/-- **C8**: constructing `ScraperRegistry` when the registry file does not
exist does not raise: the default empty skeleton is written to the path
and loaded, and the resulting registry's `list_sources()` is empty. -/
theorem C8_registry_bootstrap :
    scraperRegistryInit none = .ok (defaultRegistryDoc, ⟨[]⟩) ∧
    list_sources ⟨[]⟩ = [] := by
  exact ⟨rfl, rfl⟩

/-! ## C6 — `discover(method="url")` -/

/-- **C6 (counterexample)**: with an explicit *empty* `urls` list,
`FierceScraper.discover(method="url", urls=[])` does not return the list
verbatim — the empty list is falsy, the `method == "url" and urls` guard
fails, and the method raises `ValueError`. -/
theorem C6_counterexample :
    fierceDiscover [] "url" none none (some []) =
      .error "ValueError: Method url not supported for FierceScraper" ∧
    fierceDiscover [] "url" none none (some []) ≠ .ok [] := by
  refine ⟨rfl, ?_⟩
  intro h
  rw [show fierceDiscover [] "url" none none (some []) =
    .error "ValueError: Method url not supported for FierceScraper" from rfl] at h
  exact Except.noConfusion h

/-- **C6 (amended)**: for every *nonempty* explicit `urls` list,
`discover` with `method="url"` returns the list verbatim and without
raising, in both `FierceScraper` and `PressReleaseScraper`; the empty
list instead falls through (FierceScraper raises `ValueError`,
PressReleaseScraper falls back to RSS discovery). -/
theorem C6_url_discover_verbatim (feed feed' : List FeedEntry)
    (rssUrl : String) (since since' : Option ℚ) (limit limit' : Option Nat)
    (urls : List URLRec) (h : urls ≠ []) :
    fierceDiscover feed "url" since limit (some urls) = .ok urls ∧
    pressDiscover rssUrl feed' "url" since' limit' (some urls) = .ok urls := by
  have hne : urls.isEmpty = false := by
    cases urls with
    | nil => exact absurd rfl h
    | cons a l => rfl
  constructor <;> simp [fierceDiscover, pressDiscover, hne]

/-- Witness for C6: a concrete one-element `urls` list. -/
theorem C6_url_discover_verbatim_witness :
    ([(⟨"https", "x.com", "/A", "", "", ""⟩ : URLRec)] ≠ []) ∧
    fierceDiscover [] "url" none none
        (some [⟨"https", "x.com", "/A", "", "", ""⟩]) =
      .ok [⟨"https", "x.com", "/A", "", "", ""⟩] ∧
    pressDiscover "https://r.example/rss" [] "url" none none
        (some [⟨"https", "x.com", "/A", "", "", ""⟩]) =
      .ok [⟨"https", "x.com", "/A", "", "", ""⟩] := by
  have h := C6_url_discover_verbatim [] [] "https://r.example/rss"
    none none none none [⟨"https", "x.com", "/A", "", "", ""⟩] (by decide)
  exact ⟨by decide, h.1, h.2⟩

/-! ## C2 — `run` skips raising items and keeps the rest -/

theorem processItems_eq_filterMap {Raw Parsed Res E : Type}
    (p : Pipeline Raw Parsed Res E) (dryRun saveFixture : Bool)
    (raws : List Raw) :
    processItems p dryRun saveFixture raws =
      raws.filterMap fun r => (processItem p dryRun saveFixture r).toOption := by
  induction raws with
  | nil => rfl
  | cons r rest ih =>
    simp only [processItems, List.filterMap_cons]
    cases h : processItem p dryRun saveFixture r with
    | ok res => simp [h, Except.toOption, ih]
    | error e => simp [h, Except.toOption, ih]

/-- **C2**: for every list of fetched raw-content items, `run` returns
(without raising) exactly one result per item whose per-item chain —
parse, normalize, link, the optional fixture save, upsert — succeeds, in
fetch order; an item whose chain raises is skipped and the remaining
items' results are still returned. -/
theorem C2_run_partial_failure {Raw Parsed Res E : Type}
    (p : Pipeline Raw Parsed Res E) (dryRun saveFixture : Bool)
    (urls : List String) (raws : List Raw)
    (hd : p.discover = .ok urls) (hu : urls ≠ [])
    (hf : p.fetch urls = .ok raws) :
    run p dryRun saveFixture =
      .ok (raws.filterMap fun r =>
        (processItem p dryRun saveFixture r).toOption) := by
  have hne : urls.isEmpty = false := by
    cases urls with
    | nil => exact absurd rfl hu
    | cons a l => rfl
  simp only [run, hd, hf, hne, Bind.bind, Except.bind, Bool.false_eq_true,
    if_false, processItems_eq_filterMap]
  rfl

/-- A concrete three-item pipeline whose middle item raises in `parse`. -/
def pipeC2 : Pipeline Nat Nat Nat String :=
  { discover := .ok ["u1", "u2", "u3"]
    fetch := fun _ => .ok [1, 2, 3]
    parse := fun r => if r = 2 then .error "parse boom" else .ok r
    normalize := fun x => .ok (x * 10)
    link := fun x => .ok (x + 1)
    saveFixtureStep := fun _ _ r => .ok r
    upsert := fun _ _ => .ok true }

/-- Witness for C2: of three fetched items the second raises in `parse`;
`run` still returns the first and third results, in order. -/
theorem C2_run_partial_failure_witness :
    pipeC2.discover = .ok ["u1", "u2", "u3"] ∧
    (["u1", "u2", "u3"] : List String) ≠ [] ∧
    pipeC2.fetch ["u1", "u2", "u3"] = .ok [1, 2, 3] ∧
    run pipeC2 false false = .ok [11, 31] := by
  have h := C2_run_partial_failure pipeC2 false false ["u1", "u2", "u3"]
    [1, 2, 3] rfl (by decide) rfl
  refine ⟨rfl, by decide, rfl, ?_⟩
  rw [h]
  rfl

/-! ## C9 — `set_rate` can zero the capacity and break `get_stats` -/

theorem pyInt_eq_zero {q : ℚ} (h0 : 0 ≤ q) (h1 : q < 1) : pyInt q = 0 := by
  unfold pyInt
  apply Int.tdiv_eq_zero_of_lt (Rat.num_nonneg.mpr h0)
  have hd : (0 : ℚ) < (q.den : ℚ) := by exact_mod_cast q.pos
  have hq : q * (q.den : ℚ) = (q.num : ℚ) := by
    nth_rewrite 1 [← Rat.num_div_den q]
    exact div_mul_cancel₀ _ (ne_of_gt hd)
  have h2 : (q.num : ℚ) < (q.den : ℚ) := by
    calc (q.num : ℚ) = q * (q.den : ℚ) := hq.symm
    _ < 1 * (q.den : ℚ) := mul_lt_mul_of_pos_right h1 hd
    _ = (q.den : ℚ) := one_mul _
  exact_mod_cast h2

/-- **C9**: `set_rate(host, rate)` with the capacity argument omitted and
`0 ≤ rate < 0.1` sets the bucket capacity to `int(rate * 10) = 0`, after
which `get_stats(host)` raises `ZeroDivisionError` computing
`1.0 - tokens / capacity`. -/
theorem C9_set_rate_zero_capacity (l : RateLimiter) (host : String)
    (rate now : ℚ) (h0 : 0 ≤ rate) (h1 : rate < 1 / 10) :
    (getBucket (set_rate l host rate none now) host now).capacity = 0 ∧
    get_stats (set_rate l host rate none now) host =
      .error "ZeroDivisionError" := by
  have hz : pyInt (rate * 10) = 0 := by
    apply pyInt_eq_zero (by positivity)
    linarith
  have hlook :
      (set_rate l host rate none now).buckets.lookup host =
        some { getBucket l host now with
               rate := rate, capacity := ((0 : ℤ) : ℚ), tokens := ((0 : ℤ) : ℚ) } := by
    simp only [set_rate, Option.getD, hz, setBucket]
    exact lookup_dictSet_self _ _ _
  constructor
  · simp [getBucket, hlook]
  · simp [get_stats, hlook]

/-- Witness for C9: `rate = 0.05` on a fresh limiter. -/
theorem C9_set_rate_zero_capacity_witness :
    (0 : ℚ) ≤ 1 / 20 ∧ (1 / 20 : ℚ) < 1 / 10 ∧
    (getBucket (set_rate ⟨1, 10, []⟩ "www.example.com" (1 / 20) none 0)
        "www.example.com" 0).capacity = 0 ∧
    get_stats (set_rate ⟨1, 10, []⟩ "www.example.com" (1 / 20) none 0)
        "www.example.com" = .error "ZeroDivisionError" := by
  have h := C9_set_rate_zero_capacity ⟨1, 10, []⟩ "www.example.com" (1 / 20) 0
    (by norm_num) (by norm_num)
  exact ⟨by norm_num, by norm_num, h.1, h.2⟩

/-! ## C10 — a raised `head` is cached as a 7-day `False` -/

/-- **C10**: when the underlying `head` raises, `validate_link` returns
`False` and caches `(False, now)` under the URL; any later call for the
same URL with `use_cache` within the 7-day TTL returns `False` from the
cache without contacting the server, whatever the server would answer. -/
theorem C10_validate_link_caches_failure (st : HTTPState) (url : String)
    (uc0 : Bool) (t0 t1 : ℚ) (e : String) (out1 : Except String ℤ)
    (hmiss : st.linkCache.lookup url = none)
    (httl : t1 - t0 < linkCacheTtl) :
    validate_link st url uc0 t0 (.error e) =
      ⟨false, { st with linkCache := dictSet st.linkCache url (false, t0) }, true⟩ ∧
    validate_link { st with linkCache := dictSet st.linkCache url (false, t0) }
        url true t1 out1 =
      ⟨false, { st with linkCache := dictSet st.linkCache url (false, t0) }, false⟩ := by
  constructor
  · cases uc0 <;> simp [validate_link, hmiss]
  · simp [validate_link, lookup_dictSet_self, httl]

/-- Witness for C10: a transport error at `t = 0`, a second call one hour
later against a now-healthy server still answers `False` from the cache. -/
theorem C10_validate_link_caches_failure_witness :
    (⟨[], [], []⟩ : HTTPState).linkCache.lookup "https://x.com/a" = none ∧
    (3600 : ℚ) - 0 < linkCacheTtl ∧
    validate_link ⟨[], [], []⟩ "https://x.com/a" true 0 (.error "ConnectError") =
      ⟨false, ⟨[], [], [("https://x.com/a", (false, 0))]⟩, true⟩ ∧
    validate_link ⟨[], [], [("https://x.com/a", (false, 0))]⟩ "https://x.com/a"
        true 3600 (.ok 200) =
      ⟨false, ⟨[], [], [("https://x.com/a", (false, 0))]⟩, false⟩ := by
  have h := C10_validate_link_caches_failure ⟨[], [], []⟩ "https://x.com/a"
    true 0 3600 "ConnectError" (.ok 200) rfl (by norm_num [linkCacheTtl])
  exact ⟨rfl, by norm_num [linkCacheTtl], h.1, h.2⟩

/-! ## C5 — cached `ETag`/`Last-Modified` become conditional headers -/

/-- **C5**: after a `get(url)` whose response carried an `ETag` (and a
`Last-Modified`), a later `get(url)` with `use_cache` and caller headers
that do not themselves set the conditional headers sends
`If-None-Match` equal to the cached ETag and `If-Modified-Since` equal to
the cached Last-Modified value. -/
theorem C5_conditional_request_headers (st0 : HTTPState) (url : String)
    (uc1 : Bool) (h1 extra : Option (List (String × String)))
    (resp1 resp2 : HTTPResponse) (etag lm : String)
    (he : resp1.headers.lookup "etag" = some etag)
    (hl : resp1.headers.lookup "last-modified" = some lm)
    (hx1 : (extra.getD []).lookup "If-None-Match" = none)
    (hx2 : (extra.getD []).lookup "If-Modified-Since" = none) :
    ((httpGet (httpGet st0 url uc1 h1 resp1).2 url true extra
        resp2).1.sentHeaders).lookup "If-None-Match" = some etag ∧
    ((httpGet (httpGet st0 url uc1 h1 resp1).2 url true extra
        resp2).1.sentHeaders).lookup "If-Modified-Since" = some lm := by
  have hst : (httpGet st0 url uc1 h1 resp1).2 =
      { st0 with
        etagCache := dictSet st0.etagCache url etag
        lastModifiedCache := dictSet st0.lastModifiedCache url lm } := by
    simp [httpGet, he, hl]
  have hsent : (httpGet (httpGet st0 url uc1 h1 resp1).2 url true extra
      resp2).1.sentHeaders =
      buildGetHeaders (httpGet st0 url uc1 h1 resp1).2 url true extra := by
    simp [httpGet]
  rw [hsent, hst]
  have hbase : buildGetHeaders
      { st0 with
        etagCache := dictSet st0.etagCache url etag
        lastModifiedCache := dictSet st0.lastModifiedCache url lm }
      url true extra =
      (extra.getD []).foldl (fun a p => dictSet a p.1 p.2)
        [("If-None-Match", etag), ("If-Modified-Since", lm)] := by
    cases extra with
    | none =>
      simp [buildGetHeaders, lookup_dictSet_self, dictSet]
    | some hs =>
      simp [buildGetHeaders, lookup_dictSet_self, dictSet]
  rw [hbase]
  constructor
  · rw [lookup_foldl_dictSet _ _ _ hx1]
    rfl
  · rw [lookup_foldl_dictSet _ _ _ hx2]
    rfl

/-- Witness for C5: a fresh client, a first response carrying
`ETag: W/"abc"` and `Last-Modified: Mon`, then a second `get` with no
caller headers. -/
theorem C5_conditional_request_headers_witness :
    ((⟨0, [("etag", "W/\"abc\""), ("last-modified", "Mon")], ""⟩ :
        HTTPResponse).headers.lookup "etag" = some "W/\"abc\"") ∧
    ((⟨0, [("etag", "W/\"abc\""), ("last-modified", "Mon")], ""⟩ :
        HTTPResponse).headers.lookup "last-modified" = some "Mon") ∧
    (((none : Option (List (String × String))).getD []).lookup
        "If-None-Match" = none) ∧
    (((none : Option (List (String × String))).getD []).lookup
        "If-Modified-Since" = none) ∧
    ((httpGet (httpGet ⟨[], [], []⟩ "https://x.com/a" true none
        ⟨0, [("etag", "W/\"abc\""), ("last-modified", "Mon")], ""⟩).2
        "https://x.com/a" true none
        ⟨304, [], ""⟩).1.sentHeaders).lookup "If-None-Match" =
      some "W/\"abc\"" ∧
    ((httpGet (httpGet ⟨[], [], []⟩ "https://x.com/a" true none
        ⟨0, [("etag", "W/\"abc\""), ("last-modified", "Mon")], ""⟩).2
        "https://x.com/a" true none
        ⟨304, [], ""⟩).1.sentHeaders).lookup "If-Modified-Since" =
      some "Mon" := by
  have h := C5_conditional_request_headers ⟨[], [], []⟩ "https://x.com/a"
    true none none
    ⟨0, [("etag", "W/\"abc\""), ("last-modified", "Mon")], ""⟩
    ⟨304, [], ""⟩ "W/\"abc\"" "Mon" rfl rfl rfl rfl
  exact ⟨rfl, rfl, rfl, rfl, h.1, h.2⟩

/-! ## C3 — token-bucket behaviour at capacity 5, rate 1

The limiter of the claim: `TokenBucketRateLimiter(default_rate=1,
default_capacity=5)`.  "Immediate" calls are modelled by keeping the
wall clock at `t` across calls; `jitter` is the value
`random.uniform(0.9, 1.1)` draws (the success-path sleep it scales shows
up in `returnsAt` and is not token waiting).  `fuel = 1` allows no
wait-loop sleep, so a `fuel = 1` success is a non-blocking acquire and a
`fuel = 1` `none` means the call had to block. -/

/-- The claim's limiter: rate 1 token/s, burst capacity 5, no buckets yet. -/
def limC3 : RateLimiter := ⟨1, 5, []⟩

/-- A URL on the first host. -/
def urlC3a : URLRec := ⟨"https", "a.example", "/news", "", "", ""⟩

/-- A URL on a second host. -/
def urlC3b : URLRec := ⟨"https", "b.example", "/news", "", "", ""⟩

/-- **C3**: with capacity 5 and rate 1 token/s, five immediate `acquire`
calls for the first host's URL all succeed without blocking (each consumes
a token at time `t` on the first loop iteration); the sixth cannot succeed
without blocking and, after its one-second wait sleep, acquires exactly at
`t + 1`; an acquire for a URL of a different host succeeds immediately
from a fresh bucket and leaves the first host's exhausted bucket
unchanged. -/
theorem C3_token_bucket_per_host (t j : ℚ) :
    acquireURL limC3 urlC3a 1 none j 1 t =
      some (⟨1, 5, [("a.example", ⟨4, 5, 1, t⟩)]⟩, ⟨⟨4, 5, 1, t⟩, t, t + j, true⟩) ∧
    acquireURL ⟨1, 5, [("a.example", ⟨4, 5, 1, t⟩)]⟩ urlC3a 1 none j 1 t =
      some (⟨1, 5, [("a.example", ⟨3, 5, 1, t⟩)]⟩, ⟨⟨3, 5, 1, t⟩, t, t + j, true⟩) ∧
    acquireURL ⟨1, 5, [("a.example", ⟨3, 5, 1, t⟩)]⟩ urlC3a 1 none j 1 t =
      some (⟨1, 5, [("a.example", ⟨2, 5, 1, t⟩)]⟩, ⟨⟨2, 5, 1, t⟩, t, t + j, true⟩) ∧
    acquireURL ⟨1, 5, [("a.example", ⟨2, 5, 1, t⟩)]⟩ urlC3a 1 none j 1 t =
      some (⟨1, 5, [("a.example", ⟨1, 5, 1, t⟩)]⟩, ⟨⟨1, 5, 1, t⟩, t, t + j, true⟩) ∧
    acquireURL ⟨1, 5, [("a.example", ⟨1, 5, 1, t⟩)]⟩ urlC3a 1 none j 1 t =
      some (⟨1, 5, [("a.example", ⟨0, 5, 1, t⟩)]⟩, ⟨⟨0, 5, 1, t⟩, t, t + j, true⟩) ∧
    acquireURL ⟨1, 5, [("a.example", ⟨0, 5, 1, t⟩)]⟩ urlC3a 1 none j 1 t = none ∧
    acquireURL ⟨1, 5, [("a.example", ⟨0, 5, 1, t⟩)]⟩ urlC3a 1 none j 2 t =
      some (⟨1, 5, [("a.example", ⟨0, 5, 1, t + 1⟩)]⟩,
            ⟨⟨0, 5, 1, t + 1⟩, t + 1, t + 1 + j, true⟩) ∧
    acquireURL ⟨1, 5, [("a.example", ⟨0, 5, 1, t⟩)]⟩ urlC3b 1 none j 1 t =
      some (⟨1, 5, [("a.example", ⟨0, 5, 1, t⟩), ("b.example", ⟨4, 5, 1, t⟩)]⟩,
            ⟨⟨4, 5, 1, t⟩, t, t + j, true⟩) := by
  refine ⟨?_, ?_, ?_, ?_, ?_, ?_, ?_, ?_⟩ <;>
    simp [acquireURL, acquire, getBucket, newBucket, acquireLoop, refillBucket,
      setBucket, dictSet, limC3, urlC3a, urlC3b, List.lookup] <;>
    norm_num

/-! ## C7 — what `canonical_url` actually transforms -/

/-- **C7 (counterexample)**: `canonical_url` does *not* leave the
character case of the path and of query values unchanged — the source
lower-cases the whole URL (`url.lower()`) before parsing, so
`/Path` becomes `/path` and `q=Value` becomes `q=value`. -/
theorem C7_counterexample :
    (canonical_url ⟨"http", "x.com", "/Path", "", "q=Value", ""⟩).path ≠
      "/Path" ∧
    (canonical_url ⟨"http", "x.com", "/Path", "", "q=Value", ""⟩).query ≠
      "q=Value" ∧
    canonical_url ⟨"http", "x.com", "/Path", "", "q=Value", ""⟩ =
      ⟨"http", "x.com", "/path", "", "q=value", ""⟩ := by
  decide

/-- **C7 (amended)**: `canonical_url` lower-cases the *entire* URL (scheme,
host, path, params, query keys and values), strips the fixed deny-list of
tracking parameters from the (grouped) query, sorts the remaining
parameters by key, re-encodes them (which also drops parameters with an
empty or missing value, as `parse_qs` discards them), strips all trailing
slashes from the path, and drops the fragment. -/
theorem C7_canonical_url_transformations (u : URLRec) :
    (canonical_url u).scheme = pyLower u.scheme ∧
    (canonical_url u).netloc = pyLower u.netloc ∧
    (canonical_url u).path = pyRstripSlash (pyLower u.path) ∧
    (canonical_url u).params = pyLower u.params ∧
    (canonical_url u).query = urlencodeDoseq
      (((parseQs (pyLower u.query)).filter
        (fun p => !(trackingParams.contains p.1))).insertionSort paramLE) ∧
    (canonical_url u).fragment = "" := by
  exact ⟨rfl, rfl, rfl, rfl, rfl, rfl⟩

/-! ## C1 — invariance under tracking parameters and parameter order -/

theorem canonical_url_def (u : URLRec) :
    canonical_url u =
      ⟨pyLower u.scheme, pyLower u.netloc, pyRstripSlash (pyLower u.path),
       pyLower u.params,
       urlencodeDoseq (((parseQs (pyLower u.query)).filter
         (fun p => !(trackingParams.contains p.1))).insertionSort paramLE),
       ""⟩ := rfl

theorem mem_addToGroup_keys (l : List (String × List String))
    (k : String) (v : String) (k'' : String) :
    k'' ∈ (addToGroup l k v).map Prod.fst ↔
      k'' ∈ l.map Prod.fst ∨ k'' = k := by
  induction l with
  | nil => simp [addToGroup]
  | cons p rest ih =>
    obtain ⟨k', vs⟩ := p
    by_cases h : k' = k
    · subst h
      simp [addToGroup]
      tauto
    · simp [addToGroup, h, ih]
      tauto

theorem addToGroup_keysNodup (l : List (String × List String))
    (k : String) (v : String) (h : (l.map Prod.fst).Nodup) :
    ((addToGroup l k v).map Prod.fst).Nodup := by
  induction l with
  | nil => simp [addToGroup]
  | cons p rest ih =>
    obtain ⟨k', vs⟩ := p
    simp only [List.map_cons, List.nodup_cons] at h
    by_cases hk : k' = k
    · subst hk
      simpa [addToGroup] using h
    · simp only [addToGroup, hk, if_false, List.map_cons, List.nodup_cons]
      refine ⟨?_, ih h.2⟩
      rw [mem_addToGroup_keys]
      push_neg
      exact ⟨h.1, hk⟩

theorem foldl_addToGroup_keysNodup (ps : List (String × String))
    (acc : List (String × List String)) (h : (acc.map Prod.fst).Nodup) :
    (((ps.foldl (fun a p => addToGroup a p.1 p.2) acc)).map Prod.fst).Nodup := by
  induction ps generalizing acc with
  | nil => exact h
  | cons p rest ih => exact ih _ (addToGroup_keysNodup _ _ _ h)

/-- The grouped `parse_qs` dict never repeats a key. -/
theorem parseQs_keysNodup (q : String) : ((parseQs q).map Prod.fst).Nodup :=
  foldl_addToGroup_keysNodup _ [] (by simp)

theorem filter_keysNodup (l : List (String × List String))
    (p : String × List String → Bool) (h : (l.map Prod.fst).Nodup) :
    ((l.filter p).map Prod.fst).Nodup :=
  h.sublist ((l.filter_sublist).map Prod.fst)

/-- The strict version of the sort order on distinct keys. -/
def paramLTKey (p q : String × List String) : Prop :=
  paramLE p q ∧ p.1 ≠ q.1

instance : IsAntisymm (String × List String) paramLTKey :=
  ⟨fun _ _ hab hba => absurd (strLe_antisymm hab.1 hba.1) hab.2⟩

theorem sorted_paramLTKey (l : List (String × List String))
    (hs : List.Sorted paramLE l) (hn : (l.map Prod.fst).Nodup) :
    List.Sorted paramLTKey l := by
  have hne : List.Pairwise (fun p q : String × List String => p.1 ≠ q.1) l :=
    List.pairwise_map.mp hn
  exact (hs.and hne).imp fun h => ⟨h.1, h.2⟩

/-- Sorting by key is permutation-invariant when the keys are distinct:
the sorted list is the unique key-sorted arrangement. -/
theorem insertionSort_eq_of_perm_keysNodup
    (l1 l2 : List (String × List String)) (hp : l1.Perm l2)
    (hn : (l1.map Prod.fst).Nodup) :
    l1.insertionSort paramLE = l2.insertionSort paramLE := by
  have hperm : (l1.insertionSort paramLE).Perm (l2.insertionSort paramLE) :=
    (List.perm_insertionSort paramLE l1).trans
      (hp.trans (List.perm_insertionSort paramLE l2).symm)
  have hn1 : ((l1.insertionSort paramLE).map Prod.fst).Nodup :=
    (((List.perm_insertionSort paramLE l1).map Prod.fst).nodup_iff).mpr hn
  have hn2 : ((l2.insertionSort paramLE).map Prod.fst).Nodup :=
    (((List.perm_insertionSort paramLE l2).map Prod.fst).nodup_iff).mpr
      ((hp.map Prod.fst).nodup_iff.mp hn)
  exact List.eq_of_perm_of_sorted hperm
    (sorted_paramLTKey _ (List.sorted_insertionSort paramLE l1) hn1)
    (sorted_paramLTKey _ (List.sorted_insertionSort paramLE l2) hn2)

/-- **C1 (amended)**: two URLs that agree outside the query string and
whose lower-cased queries, grouped by `parse_qs` and stripped of the
*enumerated* tracking parameters (`utm_source`, `utm_medium`,
`utm_campaign`, `utm_term`, `utm_content`, `fbclid`, `gclid`, `msclkid`,
`_ga`, `mc_cid`, `mc_eid`), carry the same parameters (same per-key value
lists, in any order) canonicalize identically. -/
theorem C1_canonical_url_invariance (u1 u2 : URLRec)
    (hs : u1.scheme = u2.scheme) (hn : u1.netloc = u2.netloc)
    (hp : u1.path = u2.path) (hpar : u1.params = u2.params)
    (hq : ((parseQs (pyLower u1.query)).filter
            (fun p => !(trackingParams.contains p.1))).Perm
          ((parseQs (pyLower u2.query)).filter
            (fun p => !(trackingParams.contains p.1)))) :
    canonical_url u1 = canonical_url u2 := by
  have hsort := insertionSort_eq_of_perm_keysNodup _ _ hq
    (filter_keysNodup _ _ (parseQs_keysNodup (pyLower u1.query)))
  rw [canonical_url_def, canonical_url_def, hs, hn, hp, hpar, hsort]

/-- Witness for C1: `?b=2&utm_source=s&a=1` and `?a=1&b=2&gclid=g` differ
only in tracking parameters and parameter order and canonicalize to the
same URL. -/
theorem C1_canonical_url_invariance_witness :
    ((⟨"http", "x.com", "/a", "", "b=2&utm_source=s&a=1", ""⟩ :
        URLRec).scheme = "http") ∧
    ((parseQs (pyLower "b=2&utm_source=s&a=1")).filter
        (fun p => !(trackingParams.contains p.1))).Perm
      ((parseQs (pyLower "a=1&b=2&gclid=g")).filter
        (fun p => !(trackingParams.contains p.1))) ∧
    canonical_url ⟨"http", "x.com", "/a", "", "b=2&utm_source=s&a=1", ""⟩ =
      canonical_url ⟨"http", "x.com", "/a", "", "a=1&b=2&gclid=g", ""⟩ := by
  refine ⟨rfl, by decide, ?_⟩
  exact C1_canonical_url_invariance
    ⟨"http", "x.com", "/a", "", "b=2&utm_source=s&a=1", ""⟩
    ⟨"http", "x.com", "/a", "", "a=1&b=2&gclid=g", ""⟩
    rfl rfl rfl rfl (by decide)

/-- **C1 (counterexample)**: the claim's "any `utm_*` parameter" fails on
the code — the deny-list enumerates five `utm_` keys and `utm_id` is not
among them, so two URLs differing only in a `utm_id` tracking parameter
canonicalize differently. -/
theorem C1_counterexample :
    canonical_url ⟨"http", "x.com", "/a", "", "utm_id=5", ""⟩ ≠
      canonical_url ⟨"http", "x.com", "/a", "", "", ""⟩ := by
  decide

/-! ## C4 — what `get_clusters` returns -/

theorem lookup_eq_some_of_mem_keys (l : List (String × Sig)) (id : String)
    (h : id ∈ l.map Prod.fst) : ∃ sig, l.lookup id = some sig := by
  induction l with
  | nil => cases h
  | cons p rest ih =>
    obtain ⟨k, s⟩ := p
    simp only [List.map_cons, List.mem_cons] at h
    by_cases hk : id = k
    · exact ⟨s, by simp [List.lookup, hk]⟩
    · have hb : (id == k) = false := by simp [beq_iff_eq, hk]
      rcases h with h | h
      · exact absurd h hk
      · obtain ⟨sig, hsig⟩ := ih h
        exact ⟨sig, by simp [List.lookup, hb, hsig]⟩

theorem mem_of_lookup_eq_some (l : List (String × Sig)) (id : String)
    (sig : Sig) (h : l.lookup id = some sig) : (id, sig) ∈ l := by
  induction l with
  | nil => simp [List.lookup] at h
  | cons p rest ih =>
    obtain ⟨k, s⟩ := p
    simp only [List.lookup] at h
    cases hk : (id == k) with
    | true =>
      rw [hk] at h
      simp only [Option.some.injEq] at h
      have : id = k := by simpa [beq_iff_eq] using hk
      subst this
      subst h
      exact List.mem_cons_self _ _
    | false =>
      rw [hk] at h
      exact List.mem_cons_of_mem _ (ih h)

theorem lshCollide_self (sig : Sig) (h : sig ≠ []) :
    lshCollide sig sig = true := by
  cases sig with
  | nil => exact absurd rfl h
  | cons b rest => simp [lshCollide]

/-- An indexed id with a nonempty signature is always among its own LSH
candidates. -/
theorem mem_queryById_self (d : MinHashDedup) (id : String) (sig : Sig)
    (hl : d.minhashes.lookup id = some sig) (hs : sig ≠ []) :
    id ∈ queryById d id := by
  have hmem : (id, sig) ∈ d.minhashes := mem_of_lookup_eq_some _ _ _ hl
  simp only [queryById, hl, lshQuery]
  exact List.mem_map_of_mem Prod.fst
    (List.mem_filter.mpr ⟨hmem, lshCollide_self sig hs⟩)

theorem getClustersGo_covers (d : MinHashDedup)
    (hsig : ∀ p ∈ d.minhashes, p.2 ≠ []) (pending : List String) :
    ∀ (seen : List String) (id : String), id ∈ pending →
      id ∈ d.minhashes.map Prod.fst → id ∉ seen →
      ∃ c ∈ getClustersGo d pending seen, id ∈ c := by
  induction pending with
  | nil => intro seen id h; cases h
  | cons d0 rest ih =>
    intro seen id hpend hkeys hseen
    by_cases hd0 : d0 ∈ seen
    · have hc : seen.contains d0 = true := by simpa using hd0
      rw [getClustersGo, if_pos hc]
      rcases List.mem_cons.mp hpend with rfl | hrest
      · exact absurd hd0 hseen
      · exact ih seen id hrest hkeys hseen
    · rw [getClustersGo, if_neg (by simpa using hd0)]
      rcases List.mem_cons.mp hpend with rfl | hrest
      · -- the seed itself: its cluster contains it and is emitted
        obtain ⟨sig, hlook⟩ := lookup_eq_some_of_mem_keys _ _ hkeys
        have hns : sig ≠ [] := hsig _ (mem_of_lookup_eq_some _ _ _ hlook)
        have hself : id ∈ queryById d id := mem_queryById_self d id sig hlook hns
        have hne : (queryById d id).isEmpty = false := by
          cases hq : queryById d id with
          | nil => rw [hq] at hself; cases hself
          | cons a l => rfl
        rw [if_neg (by simp [hne])]
        exact ⟨queryById d id, List.mem_cons_self _ _, hself⟩
      · by_cases hemp : (queryById d d0).isEmpty = true
        · rw [if_pos hemp]
          exact ih seen id hrest hkeys hseen
        · rw [if_neg hemp]
          by_cases hin : id ∈ queryById d d0
          · exact ⟨queryById d d0, List.mem_cons_self _ _, hin⟩
          · have hseen' : id ∉ seen ++ queryById d d0 := by
              intro hm
              rcases List.mem_append.mp hm with hm | hm
              · exact hseen hm
              · exact hin hm
            obtain ⟨c, hc1, hc2⟩ := ih (seen ++ queryById d d0) id hrest hkeys hseen'
            exact ⟨c, List.mem_cons_of_mem _ hc1, hc2⟩

/-- **C4 (amended)**: `get_clusters` walks the indexed ids in insertion
order and, for each id not already covered, emits the id's *direct* LSH
candidate set (`query_by_id`) as a cluster.  Every indexed document id
appears in at least one returned cluster, but an id can appear in several
clusters, and ids connected only through a chain of near-duplicates need
not share a cluster — the result is not the connected components of the
near-duplicate relation. -/
theorem C4_clusters_cover (d : MinHashDedup)
    (hsig : ∀ p ∈ d.minhashes, p.2 ≠ []) (id : String)
    (hid : id ∈ d.minhashes.map Prod.fst) :
    ∃ c ∈ get_clusters d, id ∈ c :=
  getClustersGo_covers d hsig (d.minhashes.map Prod.fst) [] id hid hid
    (by simp)

/-- Three documents inserted via `add` whose banded signatures collide as
`A`–`B` and `B`–`C` but not `A`–`C` (two bands; Jaccard-style similarity
is not transitive, so a real MinHash LSH index can take exactly this
shape). -/
def c4Index : MinHashDedup :=
  addDoc (addDoc (addDoc ⟨[]⟩ "A" [[0], [0]]) "B" [[0], [1]]) "C" [[2], [1]]

/-- Witness for C4 (amended): every id of the chain corpus is in at least
one cluster. -/
theorem C4_clusters_cover_witness :
    (∀ p ∈ c4Index.minhashes, p.2 ≠ []) ∧
    "B" ∈ c4Index.minhashes.map Prod.fst ∧
    ∃ c ∈ get_clusters c4Index, "B" ∈ c := by
  refine ⟨by decide, by decide, ?_⟩
  exact C4_clusters_cover c4Index (by decide) "B" (by decide)

/-- **C4 (counterexample)**: on the chain corpus `A ~ B ~ C` (with
`A ≁ C`), `get_clusters` returns `[[A, B], [B, C]]`: `B` appears in two
clusters (not exactly one), and `A` and `C` are chain-connected yet share
no cluster — so the result is not the connected components of the
near-duplicate relation. -/
theorem C4_counterexample :
    get_clusters c4Index = [["A", "B"], ["B", "C"]] ∧
    queryById c4Index "A" = ["A", "B"] ∧
    queryById c4Index "B" = ["A", "B", "C"] ∧
    queryById c4Index "C" = ["B", "C"] ∧
    (get_clusters c4Index).countP (fun c => c.contains "B") = 2 ∧
    (get_clusters c4Index).all
      (fun c => !(c.contains "A" && c.contains "C")) = true := by
  decide

end Scrapers
